import Mathlib

/-!
Verification of `run_screener.py`: a shallow embedding of the script's data
model and operations, and theorems settling the specification's claims.

Modelling conventions:
* A pandas cell value is a `PyVal`: `none` stands for both Python `None` and
  float NaN/NaT (the "missing-value sentinel"); strings, ints, booleans, lists
  and dicts are represented structurally.  Python floats are outside the value
  domain of this embedding (no claim under verification depends on non-integral
  numerics).
* A DataFrame is a `Table`: an ordered list of named columns, each a list of
  cell values; row `i` of the table is the `i`-th entry of every column.
* Fallible pandas operations (`pd.to_datetime` with the default
  `errors="raise"`, column access on a missing label) are embedded in
  `Except`/`Option`; operations the source makes total (`errors="coerce"`,
  the `try/except` in `_fetch_meta`) are embedded as total functions.
* The HTTP world is an oracle `env : String → HttpOutcome` mapping a ticker's
  URL key to what the endpoint does; the thread pool of
  `ThreadPoolExecutor`/`as_completed` is embedded by an explicit completion
  order (a permutation of the task indices) driving writes into the pre-sized
  result list, exactly as `results[futures[fut]] = fut.result()` does.
-/

/-- A Python/pandas cell value.  `PyVal.none` models Python `None` and the
NaN/NaT missing sentinel. -/
inductive PyVal where
  | none : PyVal
  | bool (b : Bool) : PyVal
  | int (n : Int) : PyVal
  | str (s : String) : PyVal
  | list (xs : List PyVal) : PyVal
  | dict (fs : List (String × PyVal)) : PyVal

/-- Single-quote character (written via its code point to keep the file free of
quote-character literals). -/
def sqChar : Char := Char.ofNat 39

/-- Double-quote character. -/
def dqChar : Char := Char.ofNat 34

/-- Opening-brace character. -/
def lbraceChar : Char := Char.ofNat 123

/-- Closing-brace character. -/
def rbraceChar : Char := Char.ofNat 125

/-- Opening-bracket character. -/
def lbrackChar : Char := Char.ofNat 91

/-- Closing-bracket character. -/
def rbrackChar : Char := Char.ofNat 93

/-- Comma character. -/
def commaChar : Char := Char.ofNat 44

/-- Colon character. -/
def colonChar : Char := Char.ofNat 58

/-- Minus character. -/
def dashChar : Char := Char.ofNat 45

/-- Dot character. -/
def dotChar : Char := Char.ofNat 46

/-- Single quote as a one-character string. -/
def sqS : String := String.singleton sqChar

mutual

/-- Python `repr` of a value, as produced by `str(x)` on lists/dicts at
line 60 of the source (`df.applymap(lambda x: str(x) if isinstance(x, (list,
dict)) else x)`).  String contents are assumed to contain no quotes or
escape-worthy characters, which holds for the index-name domain. -/
def pyRepr : PyVal → String
  | PyVal.none => "None"
  | PyVal.bool b => if b then "True" else "False"
  | PyVal.int n => toString n
  | PyVal.str s => sqS ++ s ++ sqS
  | PyVal.list xs => "[" ++ pyReprList xs ++ "]"
  | PyVal.dict fs => String.singleton lbraceChar ++ pyReprFields fs ++ String.singleton rbraceChar

/-- Comma-joined reprs of list elements. -/
def pyReprList : List PyVal → String
  | [] => ""
  | [x] => pyRepr x
  | x :: y :: rest => pyRepr x ++ ", " ++ pyReprList (y :: rest)

/-- Comma-joined reprs of dict entries. -/
def pyReprFields : List (String × PyVal) → String
  | [] => ""
  | [kv] => sqS ++ kv.1 ++ sqS ++ ": " ++ pyRepr kv.2
  | kv :: kv2 :: rest => sqS ++ kv.1 ++ sqS ++ ": " ++ pyRepr kv.2 ++ ", " ++ pyReprFields (kv2 :: rest)

end

/-- Python `str()` of a value (as used by the f-string building the ticker). -/
def pyStr : PyVal → String
  | PyVal.str s => s
  | PyVal.int n => toString n
  | PyVal.bool b => if b then "True" else "False"
  | PyVal.none => "None"
  | v => pyRepr v

/-- Whitespace skipping for the JSON reader. -/
def skipWs : List Char → List Char
  | [] => []
  | c :: cs =>
    if c = Char.ofNat 32 ∨ c = Char.ofNat 9 ∨ c = Char.ofNat 10 ∨ c = Char.ofNat 13 then
      skipWs cs
    else c :: cs

/-- Split a character list into its leading run of decimal digits and the rest. -/
def spanDigits : List Char → List Char × List Char
  | [] => ([], [])
  | c :: cs =>
    if c.isDigit then
      let p := spanDigits cs
      (c :: p.1, p.2)
    else ([], c :: cs)

/-- Decimal value of a digit run. -/
def digitsToNat (ds : List Char) : Nat :=
  ds.foldl (fun a c => 10 * a + (c.toNat - 48)) 0

/-- Split a character list at the first double quote. -/
def spanNotDq : List Char → List Char × List Char
  | [] => ([], [])
  | c :: cs =>
    if c = dqChar then ([], c :: cs)
    else
      let p := spanNotDq cs
      (c :: p.1, p.2)

/-- Read the body of a JSON string after its opening double quote (escape
sequences are outside the domain: index names contain none). -/
def readJsonString (cs : List Char) : Option (String × List Char) :=
  let p := spanNotDq cs
  match p.2 with
  | c :: rest => if c = dqChar then some (String.mk p.1, rest) else Option.none
  | [] => Option.none

mutual

/-- One JSON value, strict grammar (double-quoted strings only), fuelled
recursive descent.  Models `pandas.io.json.loads` on the domain of interest:
in particular it rejects Python-repr input with single quotes. -/
def jsonVal : Nat → List Char → Option (PyVal × List Char)
  | 0, _ => Option.none
  | Nat.succ fuel, cs =>
    match skipWs cs with
    | [] => Option.none
    | c :: rest =>
      if c = dqChar then
        (readJsonString rest).map (fun p => (PyVal.str p.1, p.2))
      else if c = lbrackChar then
        match skipWs rest with
        | c2 :: rest2 =>
          if c2 = rbrackChar then some (PyVal.list [], rest2)
          else
            (jsonArrElems fuel (c2 :: rest2)).map (fun p => (PyVal.list p.1, p.2))
        | [] => Option.none
      else if c = lbraceChar then
        match skipWs rest with
        | c2 :: rest2 =>
          if c2 = rbraceChar then some (PyVal.dict [], rest2)
          else
            (jsonObjFields fuel (c2 :: rest2)).map (fun p => (PyVal.dict p.1, p.2))
        | [] => Option.none
      else if c.isDigit ∨ c = dashChar then
        let neg := c = dashChar
        let cs2 := if c = dashChar then rest else c :: rest
        match spanDigits cs2 with
        | ([], _) => Option.none
        | (ds, rest2) =>
          -- fractional and exponent forms are floats, outside the value domain
          match rest2 with
          | d :: _ =>
            if d = dotChar ∨ d = Char.ofNat 101 ∨ d = Char.ofNat 69 then Option.none
            else some (PyVal.int (if neg then -(digitsToNat ds : Int) else (digitsToNat ds : Int)), rest2)
          | [] => some (PyVal.int (if neg then -(digitsToNat ds : Int) else (digitsToNat ds : Int)), rest2)
      else if c = Char.ofNat 110 ∧ rest.take 3 = [Char.ofNat 117, Char.ofNat 108, Char.ofNat 108] then
        some (PyVal.none, rest.drop 3)
      else if c = Char.ofNat 116 ∧ rest.take 3 = [Char.ofNat 114, Char.ofNat 117, Char.ofNat 101] then
        some (PyVal.bool true, rest.drop 3)
      else if c = Char.ofNat 102 ∧ rest.take 4 = [Char.ofNat 97, Char.ofNat 108, Char.ofNat 115, Char.ofNat 101] then
        some (PyVal.bool false, rest.drop 4)
      else Option.none

/-- Elements of a JSON array after its opening bracket (nonempty case). -/
def jsonArrElems : Nat → List Char → Option (List PyVal × List Char)
  | 0, _ => Option.none
  | Nat.succ fuel, cs =>
    match jsonVal fuel cs with
    | Option.none => Option.none
    | some (v, rest) =>
      match skipWs rest with
      | c :: rest2 =>
        if c = commaChar then
          (jsonArrElems fuel rest2).map (fun p => (v :: p.1, p.2))
        else if c = rbrackChar then some ([v], rest2)
        else Option.none
      | [] => Option.none

/-- Fields of a JSON object after its opening brace (nonempty case). -/
def jsonObjFields : Nat → List Char → Option (List (String × PyVal) × List Char)
  | 0, _ => Option.none
  | Nat.succ fuel, cs =>
    match skipWs cs with
    | c :: rest =>
      if c = dqChar then
        match readJsonString rest with
        | Option.none => Option.none
        | some (k, rest2) =>
          match skipWs rest2 with
          | c2 :: rest3 =>
            if c2 = colonChar then
              match jsonVal fuel rest3 with
              | Option.none => Option.none
              | some (v, rest4) =>
                match skipWs rest4 with
                | c3 :: rest5 =>
                  if c3 = commaChar then
                    (jsonObjFields fuel rest5).map (fun p => ((k, v) :: p.1, p.2))
                  else if c3 = rbraceChar then some ([(k, v)], rest5)
                  else Option.none
                | [] => Option.none
            else Option.none
          | [] => Option.none
      else Option.none
    | [] => Option.none

end

/-- `pandas.io.json.loads` as used at line 83 of the source: parse a whole
string as one JSON document, failing (raising, in Python) on anything else. -/
def loadsJson (s : String) : Option PyVal :=
  match jsonVal (4 * s.length + 16) s.data with
  | some (v, rest) => if (skipWs rest).isEmpty then some v else Option.none
  | Option.none => Option.none

/-- A DataFrame: ordered named columns over the shared row index. -/
abbrev Table := List (String × List PyVal)

/-- Column lookup, `df[name]`: first column with the given label. -/
def getCol? : Table → String → Option (List PyVal)
  | [], _ => Option.none
  | c :: rest, n => if c.1 = n then some c.2 else getCol? rest n

/-- `name in df.columns`. -/
def hasCol (t : Table) (n : String) : Bool := (getCol? t n).isSome

/-- Number of rows (length of the first column; 0 for a column-less frame). -/
def nrows : Table → Nat
  | [] => 0
  | c :: _ => c.2.length

/-- A well-formed frame: every column has the common row count. -/
def Wellformed (t : Table) : Prop := ∀ c ∈ t, c.2.length = nrows t

/-- In-place column assignment `df[name] = vals` for an existing label. -/
def setCol (t : Table) (n : String) (vals : List PyVal) : Table :=
  t.map (fun c => if c.1 = n then (c.1, vals) else c)

/-- Line 60 of the source, per cell: `str(x) if isinstance(x, (list, dict))
else x`. -/
def stringifyCell : PyVal → PyVal
  | PyVal.list xs => PyVal.str (pyRepr (PyVal.list xs))
  | PyVal.dict fs => PyVal.str (pyRepr (PyVal.dict fs))
  | v => v

/-- `df.applymap` of `stringifyCell` over the whole frame (line 60). -/
def applymapStr (t : Table) : Table :=
  t.map (fun c => (c.1, c.2.map stringifyCell))

/-- Is the string a (signed) run of decimal digits? -/
def isIntString (s : String) : Bool :=
  match s.data with
  | [] => false
  | c :: cs =>
    (c :: cs).all Char.isDigit ||
      (c = dashChar && !cs.isEmpty && cs.all Char.isDigit)

/-- Integer value of an `isIntString` string. -/
def strToInt (s : String) : Int :=
  match s.data with
  | c :: cs =>
    if c = dashChar then -(digitsToNat cs : Int) else (digitsToNat (c :: cs) : Int)
  | [] => 0

/-- `pd.to_datetime(x, unit="s")` on one cell, with pandas' default
`errors="raise"`: a missing value maps to NaT (`Option.none`); an integer (or a
purely numeric string) is an epoch-seconds value; anything else raises, which the
embedding records as `Except.error`.  (Float cells are outside the value
domain.) -/
def to_datetime_unit_s : PyVal → Except String (Option Int)
  | PyVal.none => Except.ok Option.none
  | PyVal.int n => Except.ok (some n)
  | PyVal.str s =>
    if isIntString s then Except.ok (some (strToInt s))
    else Except.error "ValueError: non convertible value with the unit s"
  | _ => Except.error "ValueError: non convertible value with the unit s"

/-- Zero-padded two-digit rendering. -/
def pad2 (k : Nat) : String :=
  if k < 10 then "0" ++ toString k else toString k

/-- Zero-padded four-digit rendering. -/
def pad4 (k : Nat) : String :=
  if k < 10 then "000" ++ toString k
  else if k < 100 then "00" ++ toString k
  else if k < 1000 then "0" ++ toString k
  else toString k

/-- Proleptic-Gregorian date of a day count relative to 1970-01-01 (the
days-to-civil algorithm used by every epoch-to-calendar conversion). -/
def civilFromDays (z0 : Int) : Int × Nat × Nat :=
  let z : Int := z0 + 719468
  let era : Int := Int.fdiv z 146097
  let doe : Nat := (z - era * 146097).toNat
  let yoe : Nat := (doe - doe / 1460 + doe / 36524 - doe / 146096) / 365
  let doy : Nat := doe - (365 * yoe + yoe / 4 - yoe / 100)
  let mp : Nat := (5 * doy + 2) / 153
  let d : Nat := doy - (153 * mp + 2) / 5 + 1
  let m : Nat := if mp < 10 then mp + 3 else mp - 9
  let y : Int := (yoe : Int) + era * 400 + (if m ≤ 2 then 1 else 0)
  (y, m, d)

/-- `.dt.strftime("%Y-%m-%d %H:%M:%S")` of an epoch-seconds instant: the
UTC-naive rendering pandas produces for `pd.to_datetime(n, unit="s")`. -/
def epochToStr (n : Int) : String :=
  let days : Int := Int.fdiv n 86400
  let sod : Nat := (n - 86400 * days).toNat
  let ymd := civilFromDays days
  pad4 ymd.1.toNat ++ "-" ++ pad2 ymd.2.1 ++ "-" ++ pad2 ymd.2.2 ++ " " ++
    pad2 (sod / 3600) ++ ":" ++ pad2 ((sod / 60) % 60) ++ ":" ++ pad2 (sod % 60)

/-- Lines 63-70 applied to one timestamp column: `pd.to_datetime(col,
unit="s").dt.strftime(...)`; `strftime` renders NaT as NaN (the sentinel). -/
def tsConvertCol (c : List PyVal) : Except String (List PyVal) :=
  match c.mapM to_datetime_unit_s with
  | Except.error e => Except.error e
  | Except.ok es =>
    Except.ok (es.map (fun o =>
      match o with
      | some n => PyVal.str (epochToStr n)
      | Option.none => PyVal.none))

/-- Line 73: `df.replace([np.inf, -np.inf], np.nan).fillna("")` — every missing
cell becomes the empty string.  (Float infinities are outside the `PyVal`
domain; they enter this step already identified with the missing sentinel.) -/
def fillnaEmpty (t : Table) : Table :=
  t.map (fun c => (c.1, c.2.map (fun v =>
    match v with
    | PyVal.none => PyVal.str ""
    | w => w)))

/-- `item.get("name", "")` for one index-membership record; the domain has
dict records with string names (a non-dict record would raise uncaught in the
source and does not occur in the screener's data). -/
def itemName : PyVal → String
  | PyVal.dict fs =>
    match fs.lookup "name" with
    | some (PyVal.str s) => s
    | _ => ""
  | _ => ""

/-- `", ".join(item.get("name", "") for item in val)`. -/
def joinNames (xs : List PyVal) : String :=
  String.intercalate ", " (xs.map itemName)

/-- `extract_index_names` (lines 76-90): structured lists/dicts are joined on
their `name` fields; a string is fed to `pandas.io.json.loads`, whose failure
(the `except Exception` branch) yields the empty string; every other value
yields the empty string. -/
def extract_index_names : PyVal → String
  | PyVal.list xs => joinNames xs
  | PyVal.dict fs => itemName (PyVal.dict fs)
  | PyVal.str s =>
    match loadsJson s with
    | some (PyVal.list xs) => joinNames xs
    | some (PyVal.dict fs) => itemName (PyVal.dict fs)
    | _ => ""
  | _ => ""

/-- The normalization pipeline of `fetch_tradingview` (lines 60-96), applied to
the raw screener frame: stringify nested cells, convert the two epoch-timestamp
columns (raising on unconvertible values, as `pd.to_datetime` does with its
default `errors="raise"`), fill missing cells with the empty string, rewrite the
`indexes` column through `extract_index_names`, and prepend the constant
`retrieval_time` column.  The wall-clock stamp is passed in as `now`. -/
def fetch_tradingview_normalize (df0 : Table) (now : String) : Except String Table :=
  let df1 := applymapStr df0
  match getCol? df1 "earnings_release_date" with
  | Option.none => Except.error "KeyError: earnings_release_date"
  | some erd =>
    match tsConvertCol erd with
    | Except.error e => Except.error e
    | Except.ok erd2 =>
      let df2 := setCol df1 "earnings_release_date" erd2
      match getCol? df2 "earnings_release_next_date" with
      | Option.none => Except.error "KeyError: earnings_release_next_date"
      | some ernd =>
        match tsConvertCol ernd with
        | Except.error e => Except.error e
        | Except.ok ernd2 =>
          let df3 := setCol df2 "earnings_release_next_date" ernd2
          let df4 := fillnaEmpty df3
          match getCol? df4 "indexes" with
          | Option.none => Except.error "KeyError: indexes"
          | some idxc =>
            let df5 := setCol df4 "indexes" (idxc.map (fun v => PyVal.str (extract_index_names v)))
            Except.ok (("retrieval_time", List.replicate (nrows df5) (PyVal.str now)) :: df5)

/-- The `_QFS_FIELDS` constant (lines 19-24). -/
def QFS_FIELDS : List String :=
  ["qfs_symbol", "name", "symbol", "exchange", "country", "currency",
   "sector", "industry", "price", "mkt_cap", "pe", "pb", "ps",
   "ev_ebitda", "beta", "avg_vol_50d", "dividend_date",
   "ex_dividend_date", "description"]

/-- What the metadata endpoint does for one ticker key: a transport-level
failure (connection error or timeout), or a response with a status code and a
body, where `Option.none` stands for a body that is not JSON. -/
inductive HttpOutcome where
  | netError : HttpOutcome
  | response (status : Nat) (body : Option PyVal) : HttpOutcome

/-- Python `d[k]`-style access that reports failure: `Option.none` both for a
missing key and for subscripting a non-dict (both raise, and are caught by the
`except` in `_fetch_meta`). -/
def dictGet : PyVal → String → Option PyVal
  | PyVal.dict fs, k => fs.lookup k
  | _, _ => Option.none

/-- The record every field of which is the missing sentinel. -/
def allMissingRecord : List (String × PyVal) :=
  QFS_FIELDS.map (fun f => (f, PyVal.none))

/-- `_fetch_meta` (lines 118-130): one lookup against the oracle `env`.  The
`try` block raises — and the record collapses to all-missing — on a network
error, a non-success status (`raise_for_status`, status ≥ 400), a non-JSON
body, or a body without a `datasets.metadata` object; on success each declared
field is drawn from the metadata with `meta.get(f)`, absent fields becoming the
sentinel.  Either way the record is tagged `qfs_ticker = sym:ctry`.  (The
`print` warning on failure is console I/O, outside the value-level
embedding.) -/
def fetch_meta (env : String → HttpOutcome) (sym ctry : String) : List (String × PyVal) :=
  (match env (sym ++ ":" ++ ctry) with
   | HttpOutcome.netError => allMissingRecord
   | HttpOutcome.response status body =>
     if 400 ≤ status then allMissingRecord
     else
       match body with
       | Option.none => allMissingRecord
       | some j =>
         match dictGet j "datasets" with
         | Option.none => allMissingRecord
         | some ds =>
           match dictGet ds "metadata" with
           | Option.none => allMissingRecord
           | some meta => QFS_FIELDS.map (fun f => (f, (dictGet meta f).getD PyVal.none)))
  ++ [("qfs_ticker", PyVal.str (sym ++ ":" ++ ctry))]

/-- One step of the result-collection loop (lines 138-139): when the future for
index `idx` completes, write its result into slot `idx` of the pre-sized
list. -/
def poolStep (tasks : List α) (f : α → β) (acc : List (Option β)) (idx : Nat) : List (Option β) :=
  match tasks[idx]? with
  | some t => acc.set idx (some (f t))
  | Option.none => acc

/-- The `ThreadPoolExecutor`/`as_completed` fan-out/fan-in (lines 132-139):
`results = [None] * len(pairs)` followed by one `poolStep` per completed
future, in the completion order `order`.  `max_workers` bounds in-flight
concurrency only and does not influence the collected value. -/
def runPool (tasks : List α) (f : α → β) (order : List Nat) : List (Option β) :=
  order.foldl (poolStep tasks f) (List.replicate tasks.length Option.none)

/-- `pd.DataFrame(records)` for a list of same-keyed records (the only shape
`_fetch_meta` produces): columns are the first record's keys in order, each
holding that field of every record. -/
def dataFrameOfRecords (records : List (List (String × PyVal))) : Table :=
  match records with
  | [] => []
  | r0 :: _ =>
    r0.map (fun kv => (kv.1, records.map (fun r => (r.lookup kv.1).getD PyVal.none)))

/-- `.rename(columns=lambda c: f"qfs_{c}")` (line 141). -/
def renameQfs (t : Table) : Table :=
  t.map (fun c => ("qfs_" ++ c.1, c.2))

/-- Gregorian leap year. -/
def isLeap (y : Nat) : Bool :=
  (y % 4 == 0) && ((y % 100 != 0) || (y % 400 == 0))

/-- Days in a month. -/
def daysInMonth (y m : Nat) : Nat :=
  if m = 2 then (if isLeap y then 29 else 28)
  else if m = 4 ∨ m = 6 ∨ m = 9 ∨ m = 11 then 30
  else 31

/-- Parse a nonnegative integer as a compact `YYYYMMDD` date, exactly as
pandas' `%Y%m%d` fast path does: split off year/month/day arithmetically,
require a calendar-valid month and day, and require the instant to fit in the
`pd.Timestamp` range (min 1677-09-21 00:12, max 2262-04-11 23:47; a midnight
date therefore fits iff `16770922 ≤ n ≤ 22620411`).  Out-of-range or invalid
values coerce to NaT (`Option.none`), never raising — this is
`errors="coerce"`. -/
def dateParse8Nat (n : Nat) : Option (Nat × Nat × Nat) :=
  if 16770922 ≤ n ∧ n ≤ 22620411 ∧
      1 ≤ (n / 100) % 100 ∧ (n / 100) % 100 ≤ 12 ∧
      1 ≤ n % 100 ∧ n % 100 ≤ daysInMonth (n / 10000) ((n / 100) % 100) then
    some (n / 10000, (n / 100) % 100, n % 100)
  else Option.none

/-- `pd.to_datetime(v, format="%Y%m%d", errors="coerce")` on one cell: integers
and eight-digit strings go through the `YYYYMMDD` parse; everything else — the
missing sentinel, dashed strings such as an already-normalized date, and
non-scalar values — coerces to NaT. -/
def pdToDatetimeYmd : PyVal → Option (Nat × Nat × Nat)
  | PyVal.int i => if i < 0 then Option.none else dateParse8Nat i.toNat
  | PyVal.str s =>
    if s.data.all Char.isDigit ∧ s.data.length = 8 then dateParse8Nat (digitsToNat s.data)
    else Option.none
  | _ => Option.none

/-- Lines 143-148 on one cell: the `YYYYMMDD` parse followed by
`.dt.strftime("%Y-%m-%d")`, which renders NaT as NaN (the sentinel). -/
def qfs_date_normalize (v : PyVal) : PyVal :=
  match pdToDatetimeYmd v with
  | some ymd => PyVal.str (pad4 ymd.1 ++ "-" ++ pad2 ymd.2.1 ++ "-" ++ pad2 ymd.2.2)
  | Option.none => PyVal.none

/-- Lines 142-148: rewrite the `qfs_dividend_date` and `qfs_ex_dividend_date`
columns, where present, through the date normalization. -/
def dateConvQfs (t : Table) : Table :=
  t.map (fun c =>
    if c.1 = "qfs_dividend_date" ∨ c.1 = "qfs_ex_dividend_date" then
      (c.1, c.2.map qfs_date_normalize)
    else c)

/-- The enrichment frame built from the collected records (lines 141-148):
`pd.DataFrame(results)` with the `qfs_` column rename and the date-field
conversion. -/
def buildMeta (records : List (List (String × PyVal))) : Table :=
  dateConvQfs (renameQfs (dataFrameOfRecords records))

/-- Lines 107-111: the `(symbol, country)` pairs.  Python's
`if country_col and country_col in df.columns` takes its else branch both for
`None` and for an empty (falsy) column name; `df[[symbol_col, country_col]]`
requires both columns, while the default branch reads only the symbol column
and pairs each value with the constant `"US"`. -/
def pairsOf (df : Table) (sc : String) (cc : Option String) : Option (List (PyVal × PyVal)) :=
  match cc with
  | some c =>
    if c ≠ "" ∧ hasCol df c then
      match getCol? df sc, getCol? df c with
      | some ss, some cs => some (ss.zip cs)
      | _, _ => Option.none
    else (getCol? df sc).map (fun ss => ss.map (fun s => (s, PyVal.str "US")))
  | Option.none => (getCol? df sc).map (fun ss => ss.map (fun s => (s, PyVal.str "US")))

/-- `fetch_all_with_us` (lines 102-150): build the lookup pairs, run one
`_fetch_meta` per pair through the worker pool (`order` being the completion
order of the futures), assemble the enrichment frame, and concatenate it
column-wise to the input (`df.reset_index(drop=True)` is the identity in this
positional embedding).  `Option.none` models the `KeyError` a missing symbol
column raises; the HTTP session/adapter plumbing is transport-level and does
not affect the collected value. -/
def fetch_all_with_us (df : Table) (sc : String) (cc : Option String)
    (env : String → HttpOutcome) (order : List Nat) : Option Table :=
  (pairsOf df sc cc).map (fun pairs =>
    df ++ buildMeta
      ((runPool pairs (fun p => fetch_meta env (pyStr p.1) (pyStr p.2)) order).map
        (fun r => r.getD [])))

/-- An observable output action of `main`. -/
inductive Effect where
  | writeFile (name : String) (content : String) : Effect
  | consolePrint (content : String) : Effect

/-- `df.head()` — the first five rows. -/
def dfHead (n : Nat) (t : Table) : Table :=
  t.map (fun c => (c.1, c.2.take n))

/-- The output step of `main` (lines 164-165): given a renderer standing for
pandas' `to_string(index=False)`, the run performs exactly one console print of
the first five rows of the final frame — and no file write. -/
def main_output_effects (render : Table → String) (df2 : Table) : List Effect :=
  [Effect.consolePrint (render (dfHead 5 df2))]

/-- Does an effect list write a file with the given name? -/
def writesFileNamed (effs : List Effect) (name : String) : Bool :=
  effs.any (fun e =>
    match e with
    | Effect.writeFile n _ => n == name
    | Effect.consolePrint _ => false)

/-- Does this endpoint outcome make the `try` block of `_fetch_meta` raise?
True on a transport failure, a non-success status, a non-JSON body, or a body
without a `datasets.metadata` object — the failure modes the source's
`except Exception` catches. -/
def lookupFails : HttpOutcome → Bool
  | HttpOutcome.netError => true
  | HttpOutcome.response status body =>
    if 400 ≤ status then true
    else
      match body with
      | Option.none => true
      | some j =>
        match dictGet j "datasets" with
        | Option.none => true
        | some ds =>
          match dictGet ds "metadata" with
          | Option.none => true
          | some _ => false

/-! ## Auxiliary lemmas about the result-collection loop and column access -/

theorem poolStep_length (tasks : List α) (f : α → β) (acc : List (Option β)) (idx : Nat) :
    (poolStep tasks f acc idx).length = acc.length := by
  unfold poolStep
  cases tasks[idx]? <;> simp

theorem foldl_poolStep_length (tasks : List α) (f : α → β) (order : List Nat)
    (acc : List (Option β)) :
    (order.foldl (poolStep tasks f) acc).length = acc.length := by
  induction order generalizing acc with
  | nil => rfl
  | cons i rest ih => rw [List.foldl_cons, ih, poolStep_length]

theorem foldl_poolStep_stable (tasks : List α) (f : α → β) (j : Nat) (t : α)
    (ht : tasks[j]? = some t) (order : List Nat) :
    ∀ acc : List (Option β), acc[j]? = some (some (f t)) →
      (order.foldl (poolStep tasks f) acc)[j]? = some (some (f t)) := by
  induction order with
  | nil => intro acc h; exact h
  | cons i rest ih =>
    intro acc h
    rw [List.foldl_cons]
    apply ih
    unfold poolStep
    cases hti : tasks[i]? with
    | none => exact h
    | some u =>
      by_cases hij : i = j
      · rw [hij] at hti ⊢
        rw [ht] at hti
        injection hti with hut
        subst hut
        have hlt : j < acc.length := by
          by_contra hge
          rw [List.getElem?_eq_none (Nat.le_of_not_lt hge)] at h
          exact Option.noConfusion h
        rw [List.getElem?_set_self hlt]
      · rw [List.getElem?_set_ne hij]
        exact h

theorem foldl_poolStep_covered (tasks : List α) (f : α → β) (j : Nat) (t : α)
    (ht : tasks[j]? = some t) (order : List Nat) :
    ∀ acc : List (Option β), j ∈ order → j < acc.length →
      (order.foldl (poolStep tasks f) acc)[j]? = some (some (f t)) := by
  induction order with
  | nil => intro acc hmem _; exact absurd hmem (List.not_mem_nil j)
  | cons i rest ih =>
    intro acc hmem hlen
    rw [List.foldl_cons]
    by_cases hij : i = j
    · subst hij
      apply foldl_poolStep_stable tasks f i t ht rest
      unfold poolStep
      rw [ht, List.getElem?_set_self hlen]
    · have hjr : j ∈ rest := by
        cases List.mem_cons.mp hmem with
        | inl hh => exact absurd hh.symm hij
        | inr hh => exact hh
      exact ih (poolStep tasks f acc i) hjr (by rw [poolStep_length]; exact hlen)

/-- The heart of the fan-in: when the completion order is a permutation of the
task indices — as `as_completed` over the futures dict guarantees — the
collected list is exactly the in-order map of the work function, independent of
that order. -/
theorem runPool_of_perm (tasks : List α) (f : α → β) (order : List Nat)
    (h : order.Perm (List.range tasks.length)) :
    runPool tasks f order = tasks.map (fun t => some (f t)) := by
  apply List.ext_getElem?
  intro j
  by_cases hj : j < tasks.length
  · have hmem : j ∈ order := h.mem_iff.mpr (List.mem_range.mpr hj)
    have ht : tasks[j]? = some tasks[j] := List.getElem?_eq_getElem hj
    unfold runPool
    rw [foldl_poolStep_covered tasks f j tasks[j] ht order _ hmem
      (by rw [List.length_replicate]; exact hj)]
    rw [List.getElem?_map, List.getElem?_eq_getElem hj]
    rfl
  · have hlen : (runPool tasks f order).length = tasks.length := by
      unfold runPool
      rw [foldl_poolStep_length, List.length_replicate]
    rw [List.getElem?_eq_none (by rw [hlen]; exact Nat.le_of_not_lt hj),
      List.getElem?_eq_none (by rw [List.length_map]; exact Nat.le_of_not_lt hj)]

theorem runPool_nil (f : α → β) (order : List Nat) :
    runPool ([] : List α) f order = [] :=
  List.eq_nil_of_length_eq_zero
    (by unfold runPool; rw [foldl_poolStep_length, List.length_replicate]; rfl)

theorem fetch_all_with_us_eq (df : Table) (sc : String) (cc : Option String)
    (env : String → HttpOutcome) (order : List Nat) (pairs : List (PyVal × PyVal))
    (hp : pairsOf df sc cc = some pairs) :
    fetch_all_with_us df sc cc env order
      = some (df ++ buildMeta
          ((runPool pairs (fun p => fetch_meta env (pyStr p.1) (pyStr p.2)) order).map
            (fun r => r.getD []))) := by
  unfold fetch_all_with_us
  rw [hp]
  rfl

theorem getCol?_mem (t : Table) (n : String) (v : List PyVal)
    (h : getCol? t n = some v) : ∃ c ∈ t, c.2 = v := by
  induction t with
  | nil => exact absurd h (by simp [getCol?])
  | cons c rest ih =>
    unfold getCol? at h
    by_cases hc : c.1 = n
    · rw [if_pos hc] at h
      injection h with h2
      exact ⟨c, List.mem_cons_self c rest, h2⟩
    · rw [if_neg hc] at h
      obtain ⟨c2, hmem, hv⟩ := ih h
      exact ⟨c2, List.mem_cons_of_mem c hmem, hv⟩

theorem daysInMonth_le_31 (y m : Nat) : daysInMonth y m ≤ 31 := by
  unfold daysInMonth
  by_cases hm2 : m = 2
  · rw [if_pos hm2]
    cases hL : isLeap y <;> simp [hL]
  · rw [if_neg hm2]
    by_cases hm4 : m = 4 ∨ m = 6 ∨ m = 9 ∨ m = 11
    · rw [if_pos hm4]; omega
    · rw [if_neg hm4]

/-! ## Claim theorems -/

/-- C1: For every input table of N rows (for all N ≥ 0) and any subset of
lookups that fail (the oracle `env` is arbitrary, so any subset of keys may
fail in any way), `fetch_all_with_us` returns the augmented table equal to the
input columns followed by the enrichment frame built from the *in-input-order*
sequence of per-row lookup results — i.e. the i-th enrichment record is
`fetch_meta` of the i-th symbol — for *every* completion order of the
concurrent lookups (any permutation of the task indices), and the augmented
table has exactly N rows. -/
theorem C1_order_preservation (df : Table) (sc : String) (env : String → HttpOutcome)
    (order : List Nat) (syms : List PyVal)
    (hsc : getCol? df sc = some syms)
    (hperm : order.Perm (List.range syms.length))
    (hwf : Wellformed df) :
    fetch_all_with_us df sc Option.none env order
      = some (df ++ buildMeta (syms.map (fun s => fetch_meta env (pyStr s) "US")))
    ∧ nrows (df ++ buildMeta (syms.map (fun s => fetch_meta env (pyStr s) "US")))
      = syms.length := by
  constructor
  · have hpairs : pairsOf df sc Option.none
        = some (syms.map (fun s => (s, PyVal.str "US"))) := by
      unfold pairsOf
      rw [hsc]
      rfl
    rw [fetch_all_with_us_eq df sc Option.none env order _ hpairs]
    refine congrArg some ?_
    rw [runPool_of_perm _ _ order (by rw [List.length_map]; exact hperm)]
    rw [List.map_map, List.map_map]
    rfl
  · obtain ⟨c0, hc0mem, hc0⟩ := getCol?_mem df sc syms hsc
    have hnr : nrows df = syms.length := by
      rw [← hc0]
      exact (hwf c0 hc0mem).symm
    cases df with
    | nil => exact absurd hc0mem (List.not_mem_nil c0)
    | cons chead rest =>
      show chead.2.length = syms.length
      exact hnr

/-- C1 witness: a concrete two-row table, a completion order that is the
reverse of submission order, and an environment failing exactly one of the two
lookups. -/
theorem C1_order_preservation_witness :
    nrows ([("symbol", [PyVal.str "A", PyVal.str "B"])] ++
        buildMeta ([PyVal.str "A", PyVal.str "B"].map (fun s =>
          fetch_meta (fun tk => if tk = "A:US" then HttpOutcome.netError
            else HttpOutcome.response 200 (some (PyVal.dict [("datasets",
              PyVal.dict [("metadata", PyVal.dict [("price", PyVal.int 5)])])])))
            (pyStr s) "US")))
      = 2 := by
  have h := C1_order_preservation [("symbol", [PyVal.str "A", PyVal.str "B"])] "symbol"
    (fun tk => if tk = "A:US" then HttpOutcome.netError
      else HttpOutcome.response 200 (some (PyVal.dict [("datasets",
        PyVal.dict [("metadata", PyVal.dict [("price", PyVal.int 5)])])])))
    [1, 0] [PyVal.str "A", PyVal.str "B"] rfl (by decide) (by unfold Wellformed; decide)
  exact h.2

/-- C2: if the single HTTP lookup for a key fails in any way the `try` block
can fail (network error or timeout, non-success status, non-JSON body, missing
`datasets.metadata`), the unit of work does not raise (it is a total function
here) and returns the record whose every declared field is the missing
sentinel, tagged with `qfs_ticker = sym:ctry`; moreover each unit of work
depends only on the endpoint's behaviour at its own key, so one lookup's
failure cannot affect any other lookup's record. -/
theorem C2_failure_all_missing (sym ctry : String) (env : String → HttpOutcome)
    (h : lookupFails (env (sym ++ ":" ++ ctry)) = true) :
    fetch_meta env sym ctry
      = allMissingRecord ++ [("qfs_ticker", PyVal.str (sym ++ ":" ++ ctry))]
    ∧ ∀ env2 : String → HttpOutcome,
        env2 (sym ++ ":" ++ ctry) = env (sym ++ ":" ++ ctry) →
        fetch_meta env2 sym ctry = fetch_meta env sym ctry := by
  constructor
  · unfold fetch_meta
    unfold lookupFails at h
    cases henv : env (sym ++ ":" ++ ctry) with
    | netError => rfl
    | response st body =>
      rw [henv] at h
      dsimp only at h ⊢
      by_cases hst : 400 ≤ st
      · rw [if_pos hst]
      · rw [if_neg hst] at h ⊢
        cases body with
        | none => rfl
        | some j =>
          dsimp only at h ⊢
          cases hds : dictGet j "datasets" with
          | none => rfl
          | some ds =>
            rw [hds] at h
            dsimp only at h ⊢
            cases hmd : dictGet ds "metadata" with
            | none => rfl
            | some meta =>
              rw [hmd] at h
              dsimp only at h
              exact Bool.noConfusion h
  · intro env2 he
    unfold fetch_meta
    rw [he]

/-- C2 witness: an endpoint answering HTTP 404 with a non-JSON body. -/
theorem C2_failure_all_missing_witness :
    fetch_meta (fun _ => HttpOutcome.response 404 Option.none) "ZZZZ" "US"
      = allMissingRecord ++ [("qfs_ticker", PyVal.str "ZZZZ:US")] :=
  (C2_failure_all_missing "ZZZZ" "US" (fun _ => HttpOutcome.response 404 Option.none)
    (by decide)).1

/-- C3 counterexample: in the concrete one-row "ZZZZ" scenario with an HTTP 404
answer, the augmented table has *no* column named `qfs_ticker` — the record key
`qfs_ticker` is itself prefixed by the `qfs_` rename, so the tag column comes
out as `qfs_qfs_ticker`, refuting the claim as stated. -/
theorem C3_no_qfs_ticker_column :
    getCol? ((fetch_all_with_us [("symbol", [PyVal.str "ZZZZ"])] "symbol" Option.none
        (fun _ => HttpOutcome.response 404 (some (PyVal.dict []))) [0]).getD [])
      "qfs_ticker" = Option.none := by
  rfl

/-- C3 amended: for the one-row table with symbol "ZZZZ" and no country column,
when the endpoint returns HTTP 404 the run does not abort (the result is
`some`), every enrichment field column holds the missing sentinel, and the
ticker tag — in the column `qfs_qfs_ticker`, the record key `qfs_ticker`
double-prefixed by the rename — is `"ZZZZ:US"`. -/
theorem C3_scenario_404 :
    fetch_all_with_us [("symbol", [PyVal.str "ZZZZ"])] "symbol" Option.none
        (fun _ => HttpOutcome.response 404 (some (PyVal.dict []))) [0]
      = some [("symbol", [PyVal.str "ZZZZ"]),
              ("qfs_qfs_symbol", [PyVal.none]), ("qfs_name", [PyVal.none]),
              ("qfs_symbol", [PyVal.none]), ("qfs_exchange", [PyVal.none]),
              ("qfs_country", [PyVal.none]), ("qfs_currency", [PyVal.none]),
              ("qfs_sector", [PyVal.none]), ("qfs_industry", [PyVal.none]),
              ("qfs_price", [PyVal.none]), ("qfs_mkt_cap", [PyVal.none]),
              ("qfs_pe", [PyVal.none]), ("qfs_pb", [PyVal.none]),
              ("qfs_ps", [PyVal.none]), ("qfs_ev_ebitda", [PyVal.none]),
              ("qfs_beta", [PyVal.none]), ("qfs_avg_vol_50d", [PyVal.none]),
              ("qfs_dividend_date", [PyVal.none]), ("qfs_ex_dividend_date", [PyVal.none]),
              ("qfs_description", [PyVal.none]), ("qfs_qfs_ticker", [PyVal.str "ZZZZ:US"])] := by
  rfl

/-- C4: evaluation at the claim's input.  Called directly on the structured
nested list, `extract_index_names` does produce `"S&P 500, NASDAQ 100"`; but on
the pre-stringified value — the single-quoted Python repr that line 60 of the
source actually produces before line 92 runs — the JSON parse fails and the
result is the empty string, and therefore the full pipeline normalizes the cell
to `""`, contradicting the claim's (and the source comment's) intent of
handling the stringified case. -/
theorem C4_stringified_list_fails :
    extract_index_names (PyVal.list [PyVal.dict [("name", PyVal.str "S&P 500")],
        PyVal.dict [("name", PyVal.str "NASDAQ 100")]])
      = "S&P 500, NASDAQ 100"
    ∧ extract_index_names (stringifyCell (PyVal.list [PyVal.dict [("name", PyVal.str "S&P 500")],
        PyVal.dict [("name", PyVal.str "NASDAQ 100")]]))
      = ""
    ∧ fetch_tradingview_normalize
        [("earnings_release_date", [PyVal.none]), ("earnings_release_next_date", [PyVal.none]),
         ("indexes", [PyVal.list [PyVal.dict [("name", PyVal.str "S&P 500")],
           PyVal.dict [("name", PyVal.str "NASDAQ 100")]]])] "t"
      = Except.ok [("retrieval_time", [PyVal.str "t"]),
                   ("earnings_release_date", [PyVal.str ""]),
                   ("earnings_release_next_date", [PyVal.str ""]),
                   ("indexes", [PyVal.str ""])] := by
  exact ⟨rfl, rfl, rfl⟩

/-- C5 counterexample: a genuinely unparseable value in a timestamp column does
not become the empty string — `pd.to_datetime(..., unit="s")` is called with
its default `errors="raise"`, so the normalization raises and the run
aborts. -/
theorem C5_unparseable_raises :
    (fetch_tradingview_normalize
        [("earnings_release_date", [PyVal.str "abc"]),
         ("earnings_release_next_date", [PyVal.none]),
         ("indexes", [PyVal.none])] "t").isOk = false := by
  rfl

/-- C5 amended: epoch-seconds `1700000000` normalizes to
`"2023-11-14 22:13:20"` (UTC-based), and a *missing* timestamp value becomes
the empty string (NaT renders as NaN, which the subsequent fill replaces with
`""`); but a genuinely unparseable value raises instead of becoming `""`. -/
theorem C5_timestamp_conversion :
    fetch_tradingview_normalize
        [("earnings_release_date", [PyVal.int 1700000000, PyVal.none]),
         ("earnings_release_next_date", [PyVal.none, PyVal.none]),
         ("indexes", [PyVal.none, PyVal.none])] "t"
      = Except.ok [("retrieval_time", [PyVal.str "t", PyVal.str "t"]),
                   ("earnings_release_date", [PyVal.str "2023-11-14 22:13:20", PyVal.str ""]),
                   ("earnings_release_next_date", [PyVal.str "", PyVal.str ""]),
                   ("indexes", [PyVal.str "", PyVal.str ""])]
    ∧ epochToStr 1700000000 = "2023-11-14 22:13:20"
    ∧ (to_datetime_unit_s (PyVal.str "abc")).isOk = false := by
  exact ⟨rfl, rfl, rfl⟩

/-- C6 counterexample: the output step of `main` writes no file at all — in
particular no `screener_results.csv`. -/
theorem C6_no_csv_written :
    writesFileNamed (main_output_effects (fun _ => "") []) "screener_results.csv" = false := by
  rfl

/-- C6 amended: each run's output artifact is a single console print of the
first five rows of the augmented table (`print(df2.head().to_string(...))`);
no CSV file is written. -/
theorem C6_output_is_console_print (render : Table → String) (df2 : Table) :
    main_output_effects render df2 = [Effect.consolePrint (render (dfHead 5 df2))]
    ∧ writesFileNamed (main_output_effects render df2) "screener_results.csv" = false :=
  ⟨rfl, rfl⟩

/-- C7: the two date-valued enrichment fields are reformatted from the compact
numeric `YYYYMMDD` encoding to the dashed `YYYY-MM-DD` string (for every
calendar-valid date in the representable year range), any value that fails to
parse becomes the missing sentinel instead of raising (the conversion is a
total function; two unparseable shapes are evaluated), and inside
`fetch_all_with_us` the `qfs_dividend_date` / `qfs_ex_dividend_date` columns
are exactly the cell-wise image of this conversion. -/
theorem C7_qfs_date_reformat (y m d : Nat)
    (h1 : 1678 ≤ y) (h2 : y ≤ 2261) (h3 : 1 ≤ m) (h4 : m ≤ 12)
    (h5 : 1 ≤ d) (h6 : d ≤ daysInMonth y m) :
    qfs_date_normalize (PyVal.int ((y * 10000 + m * 100 + d : Nat) : Int))
      = PyVal.str (pad4 y ++ "-" ++ pad2 m ++ "-" ++ pad2 d)
    ∧ qfs_date_normalize (PyVal.str "not a date") = PyVal.none
    ∧ qfs_date_normalize (PyVal.int 20231301) = PyVal.none
    ∧ ∀ (t : Table) (vals : List PyVal) (c : String),
        (c = "qfs_dividend_date" ∨ c = "qfs_ex_dividend_date") →
        getCol? t c = some vals →
        getCol? (dateConvQfs t) c = some (vals.map qfs_date_normalize) := by
  refine ⟨?_, rfl, rfl, ?_⟩
  · have hd31 : d ≤ 31 := le_trans h6 (daysInMonth_le_31 y m)
    have e1 : (y * 10000 + m * 100 + d) / 10000 = y := by omega
    have e2 : ((y * 10000 + m * 100 + d) / 100) % 100 = m := by omega
    have e3 : (y * 10000 + m * 100 + d) % 100 = d := by omega
    unfold qfs_date_normalize pdToDatetimeYmd
    dsimp only
    rw [if_neg (by omega : ¬ (((y * 10000 + m * 100 + d : Nat) : Int) < 0))]
    rw [Int.toNat_natCast]
    unfold dateParse8Nat
    rw [if_pos]
    · dsimp only
      rw [e1, e2, e3]
    · refine ⟨by omega, by omega, by omega, by omega, by omega, ?_⟩
      rw [e1, e2, e3]
      exact h6
  · intro t vals c hc hcol
    induction t with
    | nil => simp [getCol?] at hcol
    | cons c0 rest ih =>
      unfold getCol? at hcol
      unfold dateConvQfs
      rw [List.map_cons]
      by_cases h0 : c0.1 = c
      · rw [if_pos h0] at hcol
        injection hcol with hv
        have hcond : (c0.1 = "qfs_dividend_date" ∨ c0.1 = "qfs_ex_dividend_date") := by
          rw [h0]; exact hc
        rw [if_pos hcond]
        unfold getCol?
        rw [if_pos h0, hv]
      · rw [if_neg h0] at hcol
        have hrest := ih hcol
        by_cases hcond : (c0.1 = "qfs_dividend_date" ∨ c0.1 = "qfs_ex_dividend_date")
        · rw [if_pos hcond]
          unfold getCol?
          rw [if_neg h0]
          exact hrest
        · rw [if_neg hcond]
          unfold getCol?
          rw [if_neg h0]
          exact hrest

/-- C7 witness: `20231114` reformats to `2023-11-14`. -/
theorem C7_qfs_date_reformat_witness :
    qfs_date_normalize (PyVal.int ((2023 * 10000 + 11 * 100 + 14 : Nat) : Int))
      = PyVal.str (pad4 2023 ++ "-" ++ pad2 11 ++ "-" ++ pad2 14) :=
  (C7_qfs_date_reformat 2023 11 14 (by decide) (by decide) (by decide) (by decide)
    (by decide) (by decide)).1

/-- C8 counterexample: the date normalization is not idempotent — normalizing
`20231114` yields `"2023-11-14"`, but normalizing that already-normalized value
again yields the missing sentinel, not the same value. -/
theorem C8_not_idempotent :
    ¬ (qfs_date_normalize (qfs_date_normalize (PyVal.int 20231114))
        = qfs_date_normalize (PyVal.int 20231114)) := by
  intro h
  rw [show qfs_date_normalize (PyVal.int 20231114) = PyVal.str "2023-11-14" from rfl] at h
  rw [show qfs_date_normalize (PyVal.str "2023-11-14") = PyVal.none from rfl] at h
  exact PyVal.noConfusion h

/-- C8 amended: re-running a normalization on its own output does *not* yield
the same value: the `YYYYMMDD` reformatting maps its own output
`"2023-11-14"` to the missing sentinel (the dashed string no longer matches the
compact format and `errors="coerce"` turns it into NaT), and the epoch
conversion raises on its own output `"2023-11-14 22:13:20"`. -/
theorem C8_renormalization_behaviour :
    qfs_date_normalize (PyVal.int 20231114) = PyVal.str "2023-11-14"
    ∧ qfs_date_normalize (PyVal.str "2023-11-14") = PyVal.none
    ∧ (to_datetime_unit_s (PyVal.str "2023-11-14 22:13:20")).isOk = false := by
  exact ⟨rfl, rfl, rfl⟩

/-- C9: on a zero-row input table the enrichment produces no pairs, the result
list is empty, the record frame built from it has no columns, and the output
equals the input table exactly — same columns, zero rows, no `qfs_` columns
appended. -/
theorem C9_zero_rows (df : Table) (sc : String) (env : String → HttpOutcome)
    (order : List Nat) (h : getCol? df sc = some []) :
    fetch_all_with_us df sc Option.none env order = some df := by
  have hpairs : pairsOf df sc Option.none = some [] := by
    unfold pairsOf
    rw [h]
    rfl
  rw [fetch_all_with_us_eq df sc Option.none env order [] hpairs]
  rw [runPool_nil]
  simp only [List.map_nil]
  rw [show buildMeta [] = ([] : Table) from rfl]
  rw [List.append_nil]

/-- C9 witness: the concrete empty one-column table. -/
theorem C9_zero_rows_witness :
    fetch_all_with_us [("symbol", ([] : List PyVal))] "symbol" Option.none
        (fun _ => HttpOutcome.netError) []
      = some [("symbol", ([] : List PyVal))] :=
  C9_zero_rows [("symbol", ([] : List PyVal))] "symbol" (fun _ => HttpOutcome.netError) [] rfl

/-- C10: whenever `fetch_all_with_us` returns a table, its first `df.length`
columns are *exactly* the input's columns — same names, same values, same row
order — and every appended column's name carries the `qfs_` prefix, i.e. only
new enrichment columns are added. -/
theorem C10_input_columns_unchanged (df : Table) (sc : String) (cc : Option String)
    (env : String → HttpOutcome) (order : List Nat) (out : Table)
    (h : fetch_all_with_us df sc cc env order = some out) :
    out.take df.length = df
    ∧ ∀ c ∈ out.drop df.length, ∃ base, c.1 = "qfs_" ++ base := by
  cases hp : pairsOf df sc cc with
  | none =>
    unfold fetch_all_with_us at h
    rw [hp] at h
    exact absurd h (by simp)
  | some pairs =>
    rw [fetch_all_with_us_eq df sc cc env order pairs hp] at h
    injection h with h2
    subst h2
    constructor
    · exact List.take_left df _
    · rw [List.drop_left]
      intro c hc
      unfold buildMeta dateConvQfs at hc
      obtain ⟨c1, hc1, he⟩ := List.mem_map.mp hc
      have hname : c.1 = c1.1 := by
        by_cases hcnd : (c1.1 = "qfs_dividend_date" ∨ c1.1 = "qfs_ex_dividend_date")
        · rw [if_pos hcnd] at he
          rw [← he]
        · rw [if_neg hcnd] at he
          rw [← he]
      unfold renameQfs at hc1
      obtain ⟨c2, _, he2⟩ := List.mem_map.mp hc1
      refine ⟨c2.1, ?_⟩
      rw [hname, ← he2]

/-- C10 witness: concrete one-row table, all-failing endpoint. -/
theorem C10_input_columns_unchanged_witness :
    ((fetch_all_with_us [("symbol", [PyVal.str "A"])] "symbol" Option.none
        (fun _ => HttpOutcome.netError) [0]).getD []).take 1
      = [("symbol", [PyVal.str "A"])] :=
  (C10_input_columns_unchanged [("symbol", [PyVal.str "A"])] "symbol" Option.none
    (fun _ => HttpOutcome.netError) [0] _ rfl).1
